import Mathlib

/-!
Verification of the django-locking lock model and admin integration.

The repository source is `locking/admin.py` (the `LockableAdminMixin`); the
`Lock` model itself (`locking/models.py`) is not part of the provided sources,
so its operations (`is_locked`, `is_locked_by`, `lock_for`, `unlock_for`,
`get_lock_for_object`) are modelled from the specification's Lock Manager
section. Time is modelled as a natural number of seconds; users and objects
are identified by their primary keys (natural numbers). The persisted Lock
Store is modelled as an association list from object pk to lock row, and the
Django ORM exceptions (`Lock.DoesNotExist`) and errors (`AlreadyLockedError`)
become explicit `Except` results.
-/

namespace Locking

/-- Modelled from the spec (Data Model, missing `locking/models.py`): a Lock
row holds a nullable holder reference (`locked_by`) and an expiration
timestamp (`lock_expiration_time`); `pk` is the row's own primary key, used
by the admin renderer. -/
structure Lock where
  pk : Nat
  locked_by : Option Nat
  lock_expiration_time : Nat
  deriving Repr, DecidableEq

/-- Modelled from the spec (missing `locking/models.py`): `is_locked` is
derived — true iff `locked_by` is set AND current time < `lock_expiration_time`. -/
def Lock.is_locked (l : Lock) (now : Nat) : Bool :=
  l.locked_by.isSome && decide (now < l.lock_expiration_time)

/-- Modelled from the spec (missing `locking/models.py`): `is_locked_by(user)`
is true iff locked and holder == user. -/
def Lock.is_locked_by (l : Lock) (now : Nat) (user : Nat) : Bool :=
  l.is_locked now && (l.locked_by == some user)

/-- Modelled from the spec (missing `locking/models.py`): the error raised
when acquisition conflicts with another active holder. -/
inductive AlreadyLockedError where
  | alreadyLocked
  deriving Repr, DecidableEq

/-- Modelled from the spec (missing `locking/models.py`): `lock_for(user,
duration)` on an existing lock row — if unlocked or expired or already held
by `user`, set holder=user and extend expiration to now+duration; otherwise
fail with `AlreadyLockedError`. -/
def Lock.lock_for (l : Lock) (user duration now : Nat) :
    Except AlreadyLockedError Lock :=
  if !(l.is_locked now) || l.locked_by == some user then
    Except.ok { l with locked_by := some user,
                       lock_expiration_time := now + duration }
  else
    Except.error AlreadyLockedError.alreadyLocked

/-- Modelled from the spec (missing `locking/models.py`): `unlock_for(user)`
clears the holder only if the current holder == user; silent no-op otherwise. -/
def Lock.unlock_for (l : Lock) (user : Nat) : Lock :=
  if l.locked_by == some user then { l with locked_by := none } else l

/-- Modelled from the spec (Lock Store): one row per locked object, keyed by
the object's pk. -/
abbrev Store := List (Nat × Lock)

/-- Association-list lookup of the lock row for an object. -/
def lookupLock : Store → Nat → Option Lock
  | [], _ => none
  | (o, l) :: rest, obj => if o == obj then some l else lookupLock rest obj

/-- Replace the lock row stored for an object, leaving other rows (and the
set of keys) unchanged. -/
def setLock : Store → Nat → Lock → Store
  | [], _, _ => []
  | (o, l) :: rest, obj, l' =>
    if o == obj then (o, l') :: rest else (o, l) :: setLock rest obj l'

/-- Modelled from the spec (missing `locking/models.py`): Django's
`Lock.DoesNotExist` ORM exception, signalled when no lock row exists. -/
inductive DoesNotExist where
  | doesNotExist
  deriving Repr, DecidableEq

/-- Modelled from the spec (missing `locking/models.py`):
`get_lock_for_object(obj)` fetches the lock row for an object, signalling
`Lock.DoesNotExist` if none exists. -/
def get_lock_for_object (s : Store) (obj : Nat) : Except DoesNotExist Lock :=
  match lookupLock s obj with
  | none => Except.error DoesNotExist.doesNotExist
  | some l => Except.ok l

/-- Modelled from the spec (missing `locking/models.py`): `lock_for` at the
store level — a lock row is created on first acquisition for an object,
otherwise the existing row is updated via `Lock.lock_for`. A fresh row's pk
is modelled as the object's pk (the row id is database-assigned and plays no
role in the lock model). -/
def store_lock_for (s : Store) (obj user duration now : Nat) :
    Except AlreadyLockedError Store :=
  match lookupLock s obj with
  | none =>
    Except.ok (s ++ [(obj, { pk := obj, locked_by := some user,
                             lock_expiration_time := now + duration })])
  | some l =>
    match l.lock_for user duration now with
    | Except.ok l' => Except.ok (setLock s obj l')
    | Except.error e => Except.error e

/-- Modelled from the spec (missing `locking/models.py`): `unlock_for` at the
store level — a no-op when no row exists, otherwise `Lock.unlock_for` applied
to the object's row. -/
def store_unlock_for (s : Store) (obj user : Nat) : Store :=
  match lookupLock s obj with
  | none => s
  | some l => setLock s obj (l.unlock_for user)

/-- From `LockableAdminMixin.save_model` (admin.py lines 133-146): if the
object has a pk, fetch its lock (swallowing `Lock.DoesNotExist`); if the lock
is active and held by the saving user, release it via `unlock_for`; then
delegate to the parent `save_model` exactly once. The second component counts
the delegated parent saves. -/
def save_model (obj_has_pk : Bool) (s : Store) (obj user now : Nat) :
    Store × Nat :=
  let s' :=
    if obj_has_pk then
      match get_lock_for_object s obj with
      | Except.error _ => s
      | Except.ok lock =>
        if lock.is_locked now && lock.is_locked_by now user then
          store_unlock_for s obj user
        else s
    else s
  (s', 1)

/-- Django's `django.utils.html.escape` (an external collaborator of
admin.py), per character: it replaces the five HTML-special characters by
their entities. -/
def escapeChar (c : Char) : String :=
  if c = '&' then "&amp;"
  else if c = '<' then "&lt;"
  else if c = '>' then "&gt;"
  else if c = '"' then "&quot;"
  else if c = '\'' then "&#39;"
  else String.singleton c

/-- Django's `django.utils.html.escape` over a whole string. -/
def escape (s : String) : String :=
  s.data.foldr (fun c acc => escapeChar c ++ acc) ""

/-- From `LockableAdminMixin.get_lock_for_admin` (admin.py lines 160-196).
`getFullName` models `User.get_full_name()` and `timeuntil` models Django's
`django.utils.timesince.timeuntil` (humanized remaining time as a function of
the expiration timestamp and the current time); both are external
collaborators, passed as parameters. `locking_user_pk` is the viewing user's
pk annotated onto the object (`obj._locking_user_pk`). Returns the status
markup string. The inner `none` branch is unreachable because `is_locked`
requires a holder; in Python the guarded code dereferences `lock.locked_by`
directly. -/
def get_lock_for_admin (getFullName : Nat → String)
    (timeuntil : Nat → Nat → String) (s : Store) (obj : Nat)
    (locking_user_pk : Nat) (now : Nat) : String :=
  match get_lock_for_object s obj with
  | Except.error _ => ""
  | Except.ok lock =>
    if !(lock.is_locked now) then ""
    else
      match lock.locked_by with
      | none => ""
      | some holder =>
        let untilStr := timeuntil lock.lock_expiration_time now
        let locked_by_fullname := getFullName holder
        let pair :=
          if holder == locking_user_pk then
            ("You own this lock for " ++ untilStr ++ " longer", "locking-edit")
          else
            -- admin.py line 184 interpolates `(until, locked_by_fullname)`
            -- into "Locked by %s for %s longer", in that order.
            ("Locked by " ++ untilStr ++ " for " ++ locked_by_fullname
              ++ " longer", "locking-locked")
        let msg := pair.1
        let css_class := pair.2
        "  <a href=\"#\" title=\"" ++ escape msg ++ "\"" ++
        "     data-lock-id=\"" ++ toString lock.pk ++ "\"" ++
        "     data-locked-by=\"" ++ escape locked_by_fullname ++ "\"" ++
        "     class=\"locking-status " ++ css_class ++ "\"></a>"

/-- An HTML-attribute-safe string: none of the characters that could close
the surrounding double-quoted attribute or open a tag occur in it. -/
def attrSafe (s : String) : Prop :=
  ∀ c ∈ s.data, c ≠ '"' ∧ c ≠ '<' ∧ c ≠ '>' ∧ c ≠ '\''

/-- The states of the Lock Store reachable from the empty store by acquire
and release operations (time passing changes no row: expiry is lazy, and a
failed acquisition leaves the store as it was). -/
inductive Reachable : Store → Prop where
  | empty : Reachable []
  | lock_step (s s' : Store) (obj user d now : Nat) :
      Reachable s → store_lock_for s obj user d now = Except.ok s' →
      Reachable s'
  | unlock_step (s : Store) (obj user : Nat) :
      Reachable s → Reachable (store_unlock_for s obj user)

/-! ### Helper lemmas -/

theorem is_locked_of_is_locked_by {l : Lock} {now user : Nat}
    (h : l.is_locked_by now user = true) : l.is_locked now = true := by
  simp [Lock.is_locked_by] at h
  exact h.1

theorem locked_by_eq_of_is_locked_by {l : Lock} {now user : Nat}
    (h : l.is_locked_by now user = true) : l.locked_by = some user := by
  simp [Lock.is_locked_by] at h
  exact h.2

theorem lookupLock_append_self (s : Store) (obj : Nat) (l : Lock)
    (h : lookupLock s obj = none) : lookupLock (s ++ [(obj, l)]) obj = some l := by
  induction s with
  | nil => simp [lookupLock]
  | cons p rest ih =>
    obtain ⟨o, l₀⟩ := p
    cases hob : (o == obj) with
    | true => simp [lookupLock, hob] at h
    | false =>
      simp only [lookupLock, hob, Bool.false_eq_true, if_false,
        List.cons_append] at h ⊢
      exact ih h

theorem lookupLock_setLock_self (s : Store) (obj : Nat) (l l' : Lock)
    (h : lookupLock s obj = some l) :
    lookupLock (setLock s obj l') obj = some l' := by
  induction s with
  | nil => simp [lookupLock] at h
  | cons p rest ih =>
    obtain ⟨o, l₀⟩ := p
    cases hob : (o == obj) with
    | true => simp [lookupLock, setLock, hob]
    | false =>
      simp only [lookupLock, setLock, hob, Bool.false_eq_true, if_false] at h ⊢
      exact ih h

theorem store_lock_for_ok_lookup (s s' : Store) (obj user d now : Nat)
    (h : store_lock_for s obj user d now = Except.ok s') :
    ∃ l', lookupLock s' obj = some l' ∧ l'.locked_by = some user ∧
      l'.lock_expiration_time = now + d := by
  cases hl : lookupLock s obj with
  | none =>
    simp only [store_lock_for, hl, Except.ok.injEq] at h
    subst h
    exact ⟨_, lookupLock_append_self s obj _ hl, rfl, rfl⟩
  | some l =>
    simp only [store_lock_for, hl, Lock.lock_for] at h
    by_cases hc : (!(l.is_locked now) || l.locked_by == some user) = true
    · rw [if_pos hc] at h
      simp only [Except.ok.injEq] at h
      subst h
      exact ⟨_, lookupLock_setLock_self s obj l _ hl, rfl, rfl⟩
    · rw [if_neg hc] at h
      exact Except.noConfusion h

/-! ### Claims -/

/-- Claim C3: `is_locked` is true iff `locked_by` is set and the current time
is strictly before `lock_expiration_time`; in particular once `now` is past
the expiration the lock reports unlocked even though the row still exists. -/
theorem C3_is_locked_iff (l : Lock) (now : Nat) :
    (l.is_locked now = true ↔
      l.locked_by.isSome = true ∧ now < l.lock_expiration_time) ∧
    (l.lock_expiration_time < now → l.is_locked now = false) := by
  constructor
  · simp [Lock.is_locked]
  · intro h
    simp [Lock.is_locked, show ¬ now < l.lock_expiration_time by omega]

/-- Claim C3 witness: a lock row for user 1 expiring at time 5 reports
unlocked at time 7, though the row exists. -/
theorem C3_witness : Lock.is_locked ⟨0, some 1, 5⟩ 7 = false :=
  (C3_is_locked_iff ⟨0, some 1, 5⟩ 7).2 (by decide)

/-- Claim C5: on a lock actively held by `u1`, `unlock_for u2` for any
`u2 ≠ u1` leaves the lock unchanged, while `unlock_for u1` clears the
holder. -/
theorem C5_unlock_only_holder (l : Lock) (now u1 u2 : Nat)
    (h : l.is_locked_by now u1 = true) :
    (u2 ≠ u1 → l.unlock_for u2 = l) ∧
    l.unlock_for u1 = { l with locked_by := none } := by
  have hby := locked_by_eq_of_is_locked_by h
  constructor
  · intro hne
    simp [Lock.unlock_for, hby, Ne.symm hne]
  · simp [Lock.unlock_for, hby]

/-- Claim C5 witness: with the lock held by user 1 (active at time 0),
`unlock_for 2` is a no-op and `unlock_for 1` clears the holder. -/
theorem C5_witness :
    Lock.unlock_for ⟨0, some 1, 10⟩ 2 = ⟨0, some 1, 10⟩ ∧
    Lock.unlock_for ⟨0, some 1, 10⟩ 1 = ⟨0, none, 10⟩ :=
  ⟨(C5_unlock_only_holder ⟨0, some 1, 10⟩ 0 1 2 (by decide)).1 (by decide),
   (C5_unlock_only_holder ⟨0, some 1, 10⟩ 0 1 2 (by decide)).2⟩

/-- Claim C4: `lock_for(user, d)` succeeds — setting the holder to `user` and
the expiration to `now + d` — whenever the object has no lock row, its lock
is not active (expired or holderless), or `user` already holds it; and it
fails with `AlreadyLockedError` when a different user holds a non-expired
lock. -/
theorem C4_lock_for_cases (s : Store) (obj user d now : Nat) :
    ((lookupLock s obj = none ∨
        ∃ l, lookupLock s obj = some l ∧
          (l.is_locked now = false ∨ l.locked_by = some user)) →
      ∃ s', store_lock_for s obj user d now = Except.ok s' ∧
        ∃ l', lookupLock s' obj = some l' ∧ l'.locked_by = some user ∧
          l'.lock_expiration_time = now + d) ∧
    ((∃ l, lookupLock s obj = some l ∧ l.is_locked now = true ∧
        l.locked_by ≠ some user) →
      store_lock_for s obj user d now =
        Except.error AlreadyLockedError.alreadyLocked) := by
  constructor
  · intro hok
    have hsucc : ∃ s', store_lock_for s obj user d now = Except.ok s' := by
      cases hl : lookupLock s obj with
      | none =>
        refine ⟨s ++ [(obj, (⟨obj, some user, now + d⟩ : Lock))], ?_⟩
        simp [store_lock_for, hl]
      | some l =>
        have hcond : (!(l.is_locked now) || l.locked_by == some user) = true := by
          rcases hok with hnone | ⟨l₀, hl₀, hc⟩
          · rw [hl] at hnone
            exact absurd hnone (by simp)
          · rw [hl] at hl₀
            injection hl₀ with he
            subst he
            rcases hc with hc | hc
            · simp [hc]
            · simp [hc]
        refine ⟨setLock s obj (⟨l.pk, some user, now + d⟩ : Lock), ?_⟩
        simp [store_lock_for, hl, Lock.lock_for, hcond]
    obtain ⟨s', hs'⟩ := hsucc
    obtain ⟨l', h1, h2, h3⟩ := store_lock_for_ok_lookup s s' obj user d now hs'
    exact ⟨s', hs', l', h1, h2, h3⟩
  · rintro ⟨l, hl, hact, hother⟩
    simp [store_lock_for, hl, Lock.lock_for, hact, hother]

/-- Claim C4 witness: user 2 acquires an object whose lock (held by user 1)
expired at time 100, at time 100 with duration 50: the call succeeds and the
row shows holder 2 and expiration 150. -/
theorem C4_witness :
    ∃ s', store_lock_for [(7, ⟨7, some 1, 100⟩)] 7 2 50 100 = Except.ok s' ∧
      ∃ l', lookupLock s' 7 = some l' ∧ l'.locked_by = some 2 ∧
        l'.lock_expiration_time = 100 + 50 :=
  (C4_lock_for_cases [(7, ⟨7, some 1, 100⟩)] 7 2 50 100).1
    (Or.inr ⟨⟨7, some 1, 100⟩, by decide, Or.inl (by decide)⟩)

/-- Claim C7: a second `lock_for(user, d)` right after a successful
`lock_for(user, d)` does not raise: it succeeds again and renews the
expiration to the (new) current time plus `d`. -/
theorem C7_relock_idempotent (s : Store) (obj user d now now' : Nat)
    (s' : Store) (h : store_lock_for s obj user d now = Except.ok s') :
    ∃ s'', store_lock_for s' obj user d now' = Except.ok s'' ∧
      ∃ l, lookupLock s'' obj = some l ∧ l.locked_by = some user ∧
        l.lock_expiration_time = now' + d := by
  obtain ⟨l', hl', hby, _⟩ := store_lock_for_ok_lookup s s' obj user d now h
  have hcond : (!(l'.is_locked now') || l'.locked_by == some user) = true := by
    simp [hby]
  refine ⟨setLock s' obj (⟨l'.pk, some user, now' + d⟩ : Lock), ?_, ?_⟩
  · simp [store_lock_for, hl', Lock.lock_for, hcond]
  · exact ⟨_, lookupLock_setLock_self s' obj l' _ hl', rfl, rfl⟩

/-- Claim C7 witness: after user 1 acquires object 42 for 600 at time 0, the
same call at time 5 succeeds and the row shows holder 1 and expiration
5 + 600. -/
theorem C7_witness :
    ∃ s'', store_lock_for [(42, ⟨42, some 1, 600⟩)] 42 1 600 5 = Except.ok s'' ∧
      ∃ l, lookupLock s'' 42 = some l ∧ l.locked_by = some 1 ∧
        l.lock_expiration_time = 5 + 600 :=
  C7_relock_idempotent [] 42 1 600 0 5 [(42, ⟨42, some 1, 600⟩)] (by rfl)

/-- Claim C2: when the saving user holds an active lock on the object being
saved, `save_model` releases it via `unlock_for` before delegating once to
the parent save; when no lock row exists, the lock is expired, or it is held
by a different user, the release attempt is a no-op and the save still
proceeds. -/
theorem C2_save_releases_own_lock (s : Store) (obj user now : Nat) :
    (∀ lock, lookupLock s obj = some lock →
      lock.is_locked_by now user = true →
      (save_model true s obj user now).1 = store_unlock_for s obj user ∧
      lookupLock (save_model true s obj user now).1 obj =
        some { lock with locked_by := none } ∧
      (save_model true s obj user now).2 = 1) ∧
    ((lookupLock s obj = none ∨
        ∃ lock, lookupLock s obj = some lock ∧
          (lock.is_locked now = false ∨ lock.locked_by ≠ some user)) →
      save_model true s obj user now = (s, 1)) := by
  constructor
  · intro lock hl hheld
    have hact := is_locked_of_is_locked_by hheld
    have hby := locked_by_eq_of_is_locked_by hheld
    have hstore : (save_model true s obj user now).1 = store_unlock_for s obj user := by
      simp [save_model, get_lock_for_object, hl, hact, hheld]
    refine ⟨hstore, ?_, rfl⟩
    rw [hstore]
    have hunlock : lock.unlock_for user = { lock with locked_by := none } := by
      simp [Lock.unlock_for, hby]
    simp only [store_unlock_for, hl]
    rw [← hunlock]
    exact lookupLock_setLock_self s obj lock _ hl
  · intro hnoop
    rcases hnoop with hnone | ⟨lock, hl, hc⟩
    · simp [save_model, get_lock_for_object, hnone]
    · have hguard : (lock.is_locked now && lock.is_locked_by now user) = false := by
        rcases hc with hc | hc
        · simp [hc]
        · simp [Lock.is_locked_by, hc]
      simp [save_model, get_lock_for_object, hl, hguard]

/-- Claim C2 witness: with object 7 locked by user 1 until time 600, saving
as user 1 at time 100 clears the holder and performs one parent save. -/
theorem C2_witness :
    (save_model true [(7, ⟨7, some 1, 600⟩)] 7 1 100).1 =
      store_unlock_for [(7, ⟨7, some 1, 600⟩)] 7 1 ∧
    lookupLock (save_model true [(7, ⟨7, some 1, 600⟩)] 7 1 100).1 7 =
      some ⟨7, none, 600⟩ ∧
    (save_model true [(7, ⟨7, some 1, 600⟩)] 7 1 100).2 = 1 :=
  (C2_save_releases_own_lock [(7, ⟨7, some 1, 600⟩)] 7 1 100).1
    ⟨7, some 1, 600⟩ (by decide) (by decide)

/-- Claim C9: `save_model` delegates to the parent save exactly once
regardless of lock state, and when the lock row is missing, expired, or held
by a different user, the store is left unchanged. -/
theorem C9_save_exactly_once (has_pk : Bool) (s : Store) (obj user now : Nat) :
    (save_model has_pk s obj user now).2 = 1 ∧
    ((lookupLock s obj = none ∨
        ∃ lock, lookupLock s obj = some lock ∧
          (lock.is_locked now = false ∨ lock.locked_by ≠ some user)) →
      (save_model has_pk s obj user now).1 = s) := by
  refine ⟨rfl, ?_⟩
  intro hnoop
  cases has_pk with
  | false => rfl
  | true =>
    rcases hnoop with hnone | ⟨lock, hl, hc⟩
    · simp [save_model, get_lock_for_object, hnone]
    · have hguard : (lock.is_locked now && lock.is_locked_by now user) = false := by
        rcases hc with hc | hc
        · simp [hc]
        · simp [Lock.is_locked_by, hc]
      simp [save_model, get_lock_for_object, hl, hguard]

/-- Claim C9 witness: saving an object locked by another user (user 2, active
at time 100) as user 1 performs one parent save and leaves the store
unchanged. -/
theorem C9_witness :
    (save_model true [(7, ⟨7, some 2, 600⟩)] 7 1 100).2 = 1 ∧
    (save_model true [(7, ⟨7, some 2, 600⟩)] 7 1 100).1 =
      [(7, ⟨7, some 2, 600⟩)] :=
  ⟨(C9_save_exactly_once true [(7, ⟨7, some 2, 600⟩)] 7 1 100).1,
   (C9_save_exactly_once true [(7, ⟨7, some 2, 600⟩)] 7 1 100).2
     (Or.inr ⟨⟨7, some 2, 600⟩, by decide, Or.inr (by decide)⟩)⟩

/-- Claim C6: when no lock row exists for an object, `get_lock_for_object`
signals `Lock.DoesNotExist`, and both callers treat that as "unlocked":
`save_model` swallows it and still performs the single parent save, and
`get_lock_for_admin` returns the empty string. -/
theorem C6_missing_row_is_unlocked (s : Store) (obj : Nat)
    (h : lookupLock s obj = none) :
    get_lock_for_object s obj = Except.error DoesNotExist.doesNotExist ∧
    (∀ user now, save_model true s obj user now = (s, 1)) ∧
    (∀ gf tu uid now, get_lock_for_admin gf tu s obj uid now = "") := by
  refine ⟨?_, ?_, ?_⟩
  · simp [get_lock_for_object, h]
  · intro user now
    simp [save_model, get_lock_for_object, h]
  · intro gf tu uid now
    simp [get_lock_for_admin, get_lock_for_object, h]

/-- Claim C6 witness: on the empty store, object 3 has no lock row; the
lookup signals `DoesNotExist`, a save by user 1 at time 2 proceeds once with
the store unchanged, and the admin status renders empty. -/
theorem C6_witness :
    get_lock_for_object [] 3 = Except.error DoesNotExist.doesNotExist ∧
    save_model true [] 3 1 2 = ([], 1) ∧
    get_lock_for_admin (fun _ => "") (fun _ _ => "") [] 3 0 0 = "" :=
  ⟨(C6_missing_row_is_unlocked [] 3 rfl).1,
   (C6_missing_row_is_unlocked [] 3 rfl).2.1 1 2,
   (C6_missing_row_is_unlocked [] 3 rfl).2.2 (fun _ => "") (fun _ _ => "") 0 0⟩

theorem setLock_map_fst (s : Store) (obj : Nat) (l' : Lock) :
    (setLock s obj l').map Prod.fst = s.map Prod.fst := by
  induction s with
  | nil => rfl
  | cons p rest ih =>
    obtain ⟨o, l₀⟩ := p
    cases hob : (o == obj) with
    | true => simp [setLock, hob]
    | false => simp [setLock, hob, ih]

theorem lookupLock_none_forall (s : Store) (obj : Nat)
    (h : lookupLock s obj = none) : ∀ p ∈ s, p.1 ≠ obj := by
  induction s with
  | nil => simp
  | cons p rest ih =>
    obtain ⟨o, l₀⟩ := p
    cases hob : (o == obj) with
    | true => simp [lookupLock, hob] at h
    | false =>
      simp only [lookupLock, hob, Bool.false_eq_true, if_false] at h
      intro q hq
      rcases List.mem_cons.mp hq with hq | hq
      · subst hq
        simpa using hob
      · exact ih h q hq

theorem store_lock_for_keys_nodup (s s' : Store) (obj user d now : Nat)
    (h : store_lock_for s obj user d now = Except.ok s')
    (hn : (s.map Prod.fst).Nodup) : (s'.map Prod.fst).Nodup := by
  cases hl : lookupLock s obj with
  | none =>
    simp only [store_lock_for, hl, Except.ok.injEq] at h
    subst h
    rw [List.map_append]
    rw [List.nodup_append]
    refine ⟨hn, by simp, ?_⟩
    intro a ha hb
    simp only [List.map_cons, List.map_nil, List.mem_singleton] at hb
    subst hb
    obtain ⟨p, hp, hpa⟩ := List.mem_map.mp ha
    exact lookupLock_none_forall s a hl p hp hpa
  | some l =>
    simp only [store_lock_for, hl, Lock.lock_for] at h
    by_cases hc : (!(l.is_locked now) || l.locked_by == some user) = true
    · rw [if_pos hc] at h
      simp only [Except.ok.injEq] at h
      subst h
      rw [setLock_map_fst]
      exact hn
    · rw [if_neg hc] at h
      exact Except.noConfusion h

theorem store_unlock_for_map_fst (s : Store) (obj user : Nat) :
    (store_unlock_for s obj user).map Prod.fst = s.map Prod.fst := by
  unfold store_unlock_for
  cases hl : lookupLock s obj with
  | none => rfl
  | some l => exact setLock_map_fst s obj _

theorem reachable_keys_nodup (s : Store) (h : Reachable s) :
    (s.map Prod.fst).Nodup := by
  induction h with
  | empty => simp
  | lock_step s s' obj user d now _ hok ih =>
    exact store_lock_for_keys_nodup s s' obj user d now hok ih
  | unlock_step s obj user _ ih =>
    rw [store_unlock_for_map_fst]
    exact ih

theorem filter_key_length_le_one (s : Store) (obj : Nat) (p : Nat × Lock → Bool)
    (hn : (s.map Prod.fst).Nodup) :
    (s.filter (fun r => r.1 == obj && p r)).length ≤ 1 := by
  induction s with
  | nil => simp
  | cons hd tl ih =>
    rw [List.map_cons, List.nodup_cons] at hn
    obtain ⟨hhd, htl⟩ := hn
    cases hcond : (hd.1 == obj && p hd) with
    | false => simpa [List.filter, hcond] using ih htl
    | true =>
      have hobj : hd.1 = obj := by
        have := (Bool.and_eq_true _ _).mp hcond
        exact beq_iff_eq.mp this.1
      have hempty : tl.filter (fun r => r.1 == obj && p r) = [] := by
        rw [List.filter_eq_nil_iff]
        intro r hr
        have hne : r.1 ≠ obj := by
          intro he
          exact hhd (by rw [hobj, ← he]; exact List.mem_map.mpr ⟨r, hr, rfl⟩)
        simp [hne]
      simp [List.filter, hcond, hempty]

/-- Claim C8: in every reachable state of the Lock Store, each object has at
most one non-expired lock (every sequence of acquire/release operations
preserves the invariant; expiry never edits the store). -/
theorem C8_at_most_one_active_lock (s : Store) (h : Reachable s)
    (obj now : Nat) :
    (s.filter (fun r => r.1 == obj && r.2.is_locked now)).length ≤ 1 :=
  filter_key_length_le_one s obj _ (reachable_keys_nodup s h)

/-- Claim C8 witness: the store reached by user 1 acquiring object 42 for 600
seconds starting from the empty store has at most one active lock on object
42 at time 100. -/
theorem C8_witness :
    (([(42, ⟨42, some 1, 600⟩)] : Store).filter
      (fun r => r.1 == 42 && r.2.is_locked 100)).length ≤ 1 :=
  C8_at_most_one_active_lock [(42, ⟨42, some 1, 600⟩)]
    (Reachable.lock_step [] [(42, ⟨42, some 1, 600⟩)] 42 1 600 0
      Reachable.empty (by rfl)) 42 100

theorem escapeChar_attrSafe (c : Char) : attrSafe (escapeChar c) := by
  unfold escapeChar
  by_cases h1 : c = '&'
  · rw [if_pos h1]
    unfold attrSafe
    decide
  rw [if_neg h1]
  by_cases h2 : c = '<'
  · rw [if_pos h2]
    unfold attrSafe
    decide
  rw [if_neg h2]
  by_cases h3 : c = '>'
  · rw [if_pos h3]
    unfold attrSafe
    decide
  rw [if_neg h3]
  by_cases h4 : c = '"'
  · rw [if_pos h4]
    unfold attrSafe
    decide
  rw [if_neg h4]
  by_cases h5 : c = '\''
  · rw [if_pos h5]
    unfold attrSafe
    decide
  rw [if_neg h5]
  intro c' hc'
  have hdata : (String.singleton c).data = [c] := rfl
  rw [hdata] at hc'
  have he : c' = c := by simpa using hc'
  subst he
  exact ⟨h4, h2, h3, h5⟩

theorem foldr_escape_attrSafe (cs : List Char) :
    attrSafe (cs.foldr (fun c acc => escapeChar c ++ acc) "") := by
  induction cs with
  | nil => intro c hc; simp [String.data] at hc
  | cons c cs ih =>
    intro c' hc'
    rw [List.foldr_cons, String.data_append] at hc'
    rcases List.mem_append.mp hc' with h | h
    · exact escapeChar_attrSafe c c' h
    · exact ih c' h

theorem escape_attrSafe (s : String) : attrSafe (escape s) :=
  foldr_escape_attrSafe s.data

/-- Claim C10: for a locked object the markup returned by
`get_lock_for_admin` embeds the status message and the holder's full name
only through `escape`, and for every possible holder name the escaped values
contain none of the characters that could break out of the double-quoted
attributes (`"`, `<`, `>`, `'`). -/
theorem C10_markup_escapes (gf : Nat → String) (tu : Nat → Nat → String)
    (s : Store) (obj uid now : Nat) (lock : Lock)
    (hfind : get_lock_for_object s obj = Except.ok lock)
    (hlocked : lock.is_locked now = true) :
    ∃ holder msg css_class, lock.locked_by = some holder ∧
      get_lock_for_admin gf tu s obj uid now =
        "  <a href=\"#\" title=\"" ++ escape msg ++ "\"" ++
        "     data-lock-id=\"" ++ toString lock.pk ++ "\"" ++
        "     data-locked-by=\"" ++ escape (gf holder) ++ "\"" ++
        "     class=\"locking-status " ++ css_class ++ "\"></a>" ∧
      attrSafe (escape msg) ∧ attrSafe (escape (gf holder)) := by
  obtain ⟨holder, hby⟩ : ∃ holder, lock.locked_by = some holder := by
    have : lock.locked_by.isSome = true := by
      simp [Lock.is_locked] at hlocked
      exact hlocked.1
    exact Option.isSome_iff_exists.mp this
  cases hwho : (holder == uid) with
  | true =>
    refine ⟨holder, "You own this lock for " ++ tu lock.lock_expiration_time now
      ++ " longer", "locking-edit", hby, ?_, escape_attrSafe _, escape_attrSafe _⟩
    simp [get_lock_for_admin, hfind, hlocked, hby, hwho]
  | false =>
    refine ⟨holder, "Locked by " ++ tu lock.lock_expiration_time now ++ " for "
      ++ gf holder ++ " longer", "locking-locked", hby, ?_,
      escape_attrSafe _, escape_attrSafe _⟩
    simp [get_lock_for_admin, hfind, hlocked, hby, hwho]

/-- Claim C10 witness: with a holder whose full name contains `<`, `"` and
`&`, the rendered markup embeds only the escaped message and name, and both
are attribute-safe. -/
theorem C10_witness :
    ∃ holder msg css_class,
      (Lock.locked_by ⟨7, some 2, 600⟩ : Option Nat) = some holder ∧
      get_lock_for_admin (fun _ => "A<B\"C&D") (fun e n => toString (e - n))
          [(7, ⟨7, some 2, 600⟩)] 7 1 100 =
        "  <a href=\"#\" title=\"" ++ escape msg ++ "\"" ++
        "     data-lock-id=\"" ++ toString (Lock.pk ⟨7, some 2, 600⟩) ++ "\"" ++
        "     data-locked-by=\"" ++
          escape ((fun (_ : Nat) => "A<B\"C&D") holder) ++ "\"" ++
        "     class=\"locking-status " ++ css_class ++ "\"></a>" ∧
      attrSafe (escape msg) ∧
      attrSafe (escape ((fun (_ : Nat) => "A<B\"C&D") holder)) :=
  C10_markup_escapes (fun _ => "A<B\"C&D") (fun e n => toString (e - n))
    [(7, ⟨7, some 2, 600⟩)] 7 1 100 ⟨7, some 2, 600⟩ (by rfl) (by decide)

/-- Claim C1: at a concrete input where another user (pk 2, full name
"John Doe") holds the lock with 500 time units remaining, the admin status
renderer produces the title message "Locked by 500 for John Doe longer": the
remaining time and the holder name are interpolated in swapped order
relative to the message's wording, because admin.py line 184 passes
`(until, locked_by_fullname)` — in that order — into the template
"Locked by %s for %s longer". The claim's "Locked by NAME for T longer"
therefore fails on the code, while the empty-when-inactive and
"You own this lock for T longer" parts hold. -/
theorem C1_locked_message_swapped :
    get_lock_for_admin (fun _ => "John Doe") (fun e n => toString (e - n))
      [(7, ⟨7, some 2, 600⟩)] 7 1 100 =
      "  <a href=\"#\" title=\"Locked by 500 for John Doe longer\"" ++
      "     data-lock-id=\"7\"" ++
      "     data-locked-by=\"John Doe\"" ++
      "     class=\"locking-status locking-locked\"></a>" ∧
    get_lock_for_admin (fun _ => "John Doe") (fun e n => toString (e - n))
      [(7, ⟨7, some 2, 600⟩)] 7 2 100 =
      "  <a href=\"#\" title=\"You own this lock for 500 longer\"" ++
      "     data-lock-id=\"7\"" ++
      "     data-locked-by=\"John Doe\"" ++
      "     class=\"locking-status locking-edit\"></a>" ∧
    get_lock_for_admin (fun _ => "John Doe") (fun e n => toString (e - n))
      [(7, ⟨7, some 2, 600⟩)] 7 1 600 = "" := by
  refine ⟨?_, ?_, ?_⟩ <;> rfl

end Locking
